import Mathlib

/-!
# ReadoutCard: a verification development

Shallow embedding of the parts of the ReadoutCard sources that the specification's
claims speak about, followed by the theorems that settle those claims.

Sources embedded:
* `include/ReadoutCard/ParameterTypes/ResetLevel.h`  (enum `ResetLevel::type`)
* `include/ReadoutCard/Exception.h`                  (exception hierarchy)
* `src/Crorc/CrorcBar.h`                             (`CrorcBar::getCardType`)
* `src/CommandLineUtilities/ProgramStatus.cxx`       (clock and link status labels)
* `src/Example.cxx`                                  (push loop and retrieval loop of `main`)

Parts of the repository that are not among the sources (the bodies of the `ResetLevel`
functions, the link status tracker, the superpage ring and the DMA channel) are modelled
from the specification; each such definition says so in its doc comment.
-/

namespace ReadoutCard

/-! ## Reset level (`ResetLevel.h`) -/

namespace ResetLevel

/-- The enum `ResetLevel::type` with its three enumerators. -/
inductive type where
  | Nothing
  | Internal
  | InternalSiu
  deriving DecidableEq

/-- Numeric value of an enumerator: `Nothing = 0`, `Internal = 1`, `InternalSiu = 2`. -/
def type.toNat : type → Nat
  | .Nothing => 0
  | .Internal => 1
  | .InternalSiu => 2

/-- Modelled from the spec: the body of `ResetLevel::toString` (ResetLevel.cxx) is not among
the sources, only its declaration is. The spec names the canonical tokens `"NOTHING"`,
`"INTERNAL"`, `"INTERNAL_SIU"`. -/
def toString : type → String
  | .Nothing => "NOTHING"
  | .Internal => "INTERNAL"
  | .InternalSiu => "INTERNAL_SIU"

/-- Failure of `ResetLevel::fromString`: the spec's `ParseException`. -/
inductive ParseException where
  | unrecognized (input : String)
  deriving DecidableEq

/-- Modelled from the spec: the body of `ResetLevel::fromString` (ResetLevel.cxx) is not among
the sources. Per the spec it is a case-sensitive exact match against the canonical tokens and
fails with `ParseException` for any unrecognized input. -/
def fromString (string : String) : Except ParseException type :=
  if string = "NOTHING" then .ok .Nothing
  else if string = "INTERNAL" then .ok .Internal
  else if string = "INTERNAL_SIU" then .ok .InternalSiu
  else .error (.unrecognized string)

/-- Modelled from the spec: the body of `ResetLevel::includesExternal` (ResetLevel.cxx) is not
among the sources. The header documents it as "Returns true if the reset level includes
external resets (SIU)"; the spec says it is true only for `InternalSiu`. -/
def includesExternal (level : type) : Bool :=
  decide (level = .InternalSiu)

end ResetLevel

/-! ## Exception hierarchy (`Exception.h`) -/

/-- One `struct` definition of `Exception.h`: its name and the names of its direct bases,
as written in the header. -/
structure ExceptionDecl where
  name : String
  bases : List String
  deriving DecidableEq

/-- The exception definitions of `Exception.h`, in the order of the header. -/
def exceptionDefinitions : List ExceptionDecl :=
  [ ⟨"Exception", ["Common::Exception"]⟩,
    -- General exception definitions
    ⟨"PdaException", ["Exception"]⟩,
    ⟨"MemoryMapException", ["Exception"]⟩,
    ⟨"ParameterException", ["Exception"]⟩,
    ⟨"ParseException", ["Exception"]⟩,
    ⟨"InvalidParameterException", ["ParameterException"]⟩,
    ⟨"OutOfRangeException", ["Exception"]⟩,
    ⟨"LockException", ["Exception"]⟩,
    ⟨"FileLockException", ["LockException"]⟩,
    ⟨"NamedMutexLockException", ["LockException"]⟩,
    ⟨"DeviceFinderException", ["Exception"]⟩,
    ⟨"SharedStateException", ["Exception"]⟩,
    ⟨"SharedObjectNotFoundException", ["Exception"]⟩,
    ⟨"TimeoutException", ["Exception"]⟩,
    -- C-RORC exception definitions
    ⟨"CrorcException", ["Exception"]⟩,
    ⟨"CrorcArmDataGeneratorException", ["CrorcException"]⟩,
    ⟨"CrorcArmDdlException", ["CrorcException"]⟩,
    ⟨"CrorcInitDiuException", ["CrorcException"]⟩,
    ⟨"CrorcCheckLinkException", ["CrorcException"]⟩,
    ⟨"CrorcSiuCommandException", ["CrorcException"]⟩,
    ⟨"CrorcDiuCommandException", ["CrorcException"]⟩,
    ⟨"CrorcSiuLoopbackException", ["CrorcException"]⟩,
    ⟨"CrorcFreeFifoException", ["CrorcException"]⟩,
    ⟨"CrorcStartDataGeneratorException", ["CrorcException"]⟩,
    ⟨"CrorcStartTriggerException", ["CrorcException"]⟩,
    ⟨"CrorcStopTriggerException", ["CrorcException"]⟩,
    ⟨"CrorcDataArrivalException", ["CrorcException"]⟩,
    -- CRU exception definitions
    ⟨"CruException", ["Exception"]⟩,
    -- Utility exception definition
    ⟨"UtilException", ["boost::exception", "std::exception"]⟩,
    ⟨"ProgramOptionException", ["UtilException"]⟩,
    ⟨"InvalidOptionValueException", ["ProgramOptionException"]⟩,
    ⟨"OptionRequiredException", ["ProgramOptionException"]⟩ ]

/-- Names of the exception types the header defines. -/
def declaredExceptions : List String :=
  exceptionDefinitions.map ExceptionDecl.name

/-- Direct bases of the type called `name` (empty when the header defines no such type). -/
def basesOf (name : String) : List String :=
  match exceptionDefinitions.find? (fun d => d.name == name) with
  | some d => d.bases
  | none => []

/-- Inheritance, followed for at most `fuel` steps: `name` is `ancestor` itself or one of its
direct bases derives from `ancestor`. -/
def derivesFromWithin : Nat → String → String → Bool
  | 0, name, ancestor => name == ancestor
  | fuel + 1, name, ancestor =>
    name == ancestor || (basesOf name).any (fun b => derivesFromWithin fuel b ancestor)

/-- The type called `name` is defined by the header and descends from the library's base
`Exception`. The header's inheritance chains are shorter than its number of definitions. -/
def isLibraryException (name : String) : Bool :=
  declaredExceptions.contains name &&
    derivesFromWithin exceptionDefinitions.length name "Exception"

/-- The error kinds of the spec's taxonomy, each given by its stem: kind `XError` of the spec
is named by the stem `X`. -/
def errorTaxonomy : List String :=
  ["MemoryMap", "Pda", "InvalidParameter", "QueueFull", "NotReady", "Timeout", "Parse"]

/-- Name of the exception type corresponding to the kind with the given stem: the header's
naming scheme is `XException`. -/
def exceptionNameOf (stem : String) : String :=
  stem ++ "Exception"

/-- The kind with the given stem is covered: its exception type is defined by the header and
descends from the base `Exception`. -/
def kindCovered (stem : String) : Bool :=
  isLibraryException (exceptionNameOf stem)

/-- Some defined exception type carries the stem somewhere in its name. -/
def stemOccurs (stem : String) : Bool :=
  declaredExceptions.any (fun n => decide (stem.data <:+: n.data))

/-! ## Card type and the C-RORC BAR interface (`CrorcBar.h`) -/

namespace CardType

/-- Modelled from the spec: `CardType.h` is not among the sources. `Crorc` and `Cru` are the
enumerators the sources name (`CrorcBar.h`, `ProgramStatus.cxx`); `Unknown` stands for any
other value, which `ProgramStatus.cxx` reports as "Invalid card type". -/
inductive type where
  | Unknown
  | Crorc
  | Cru
  deriving DecidableEq

end CardType

/-- State of a `CrorcBar` object: the data members declared in `CrorcBar.h`, and the state of
its base class `BarInterfaceBase` (declared elsewhere), kept abstract as `Base`. The two
`uint16_t` members are numbers below `2 ^ 16`. -/
structure CrorcBar (Base : Type) where
  base : Base
  mCrorcId : Fin (2 ^ 16)
  mDynamicOffset : Bool
  mTimeFrameLength : Fin (2 ^ 16)
  mTimeFrameDetectionEnabled : Bool

/-- The member function `CrorcBar::getCardType`, `return CardType::Crorc;`, as a state
transformer: the returned value and the state of the object after the call. -/
def CrorcBar.getCardType {Base : Type} (self : CrorcBar Base) : CardType.type × CrorcBar Base :=
  (CardType.type.Crorc, self)

/-! ## Status tool (`ProgramStatus.cxx`) -/

namespace Cru

/-- Modelled from the spec: `Cru/Common.h` is not among the sources. The spec gives the sticky
status bit the states `Down`, `Up`, `UpWasDown`, the three values `ProgramStatus.cxx` tests. -/
inductive LinkStatus where
  | Down
  | Up
  | UpWasDown
  deriving DecidableEq

/-- Modelled from the spec: `Cru/Common.h` is not among the sources. The channel-wide fields of
a report that `ProgramStatus::run` reads before the per-link loop: `ttcClock` (an integer,
0 = TTC, 1 = Local) and `dynamicOffset`. -/
structure ReportInfo where
  ttcClock : Int
  dynamicOffset : Bool
  deriving DecidableEq

/-- Modelled from the spec: the link status tracker (section 4.3) is not among the sources.
The state of one link, "persisted across successive `report()` calls (not recomputed from
scratch, because the sticky bit requires history)": the sticky status, and the history the
latch needs, whether a down event was observed while the link was previously `Up`. -/
structure LinkTracker where
  status : LinkStatus
  downSeenWhileUp : Bool
  deriving DecidableEq

/-- Modelled from the spec: one report pass of the link status tracker (section 4.3), from the
persisted state of the link and the instantaneous hardware "link up" signal `u`. The rows are
the spec's transition rule, in its order. `Up + u=false → Down` is the down event observed
while previously `Up`, which the tracker remembers; at the next up-reading the status is then
`UpWasDown` ("latches once a transient down event is observed while previously `Up`"), and
`Up` when no such event was seen. `UpWasDown` "is cleared only by an explicit reset of the
tracker (not by a subsequent `Up` reading)", so a report pass leaves it as it is. -/
def LinkTracker.reportPass (tracker : LinkTracker) (u : Bool) : LinkTracker :=
  match tracker.status, u with
  | .Down, false => { tracker with status := .Down }
  | .Down, true =>
    if tracker.downSeenWhileUp then { tracker with status := .UpWasDown }
    else { tracker with status := .Up }
  | .Up, true => { tracker with status := .Up }
  | .Up, false => { status := .Down, downSeenWhileUp := true }
  | .UpWasDown, _ => { tracker with status := .UpWasDown }

/-- Successive report passes, one for each reading of the "link up" signal, in order. -/
def LinkTracker.reportPasses (tracker : LinkTracker) : List Bool → LinkTracker
  | [] => tracker
  | u :: rest => LinkTracker.reportPasses (tracker.reportPass u) rest

end Cru

/-- The clock label of `ProgramStatus::run`:
`std::string clock = (reportInfo.ttcClock == 0 ? "TTC" : "Local");`. -/
def clockLabel (reportInfo : Cru.ReportInfo) : String :=
  if reportInfo.ttcClock = 0 then "TTC" else "Local"

/-- The link status label of `ProgramStatus::run`: `linkStatus` is default-constructed (empty)
and assigned in an `if` / `else if` chain over `link.stickyBit`. -/
def linkStatusLabel (stickyBit : Cru.LinkStatus) : String :=
  let linkStatus := ""
  if stickyBit = Cru.LinkStatus.Up then "UP"
  else if stickyBit = Cru.LinkStatus.UpWasDown then "UP (was DOWN)"
  else if stickyBit = Cru.LinkStatus.Down then "DOWN"
  else linkStatus

/-! ## Superpage, descriptor ring and DMA channel -/

/-- Modelled from the spec: `Superpage.h` is not among the sources. The attributes are those
of the spec's data model (section 3): `offset`, `size`, `bytesReceived`, `ready`. -/
structure Superpage where
  offset : Nat
  size : Nat
  bytesReceived : Nat
  ready : Bool
  deriving DecidableEq

namespace Superpage

/-- Modelled from the spec: the constructor `roc::Superpage(offset, size)` that `Example.cxx`
calls; a superpage created by the caller at submission time has received nothing and is not
ready. -/
def new (offset size : Nat) : Superpage :=
  { offset := offset, size := size, bytesReceived := 0, ready := false }

/-- Modelled from the spec: the accessor `isReady()` that `Example.cxx` calls. -/
def isReady (sp : Superpage) : Bool :=
  sp.ready

/-- Modelled from the spec: the accessor `getOffset()` that `Example.cxx` calls. -/
def getOffset (sp : Superpage) : Nat :=
  sp.offset

/-- The superpage once the hardware has signalled its completion: `ready = true`. -/
def markReady (sp : Superpage) : Superpage :=
  { sp with ready := true }

end Superpage

/-- Modelled from the spec: the failures its ring and channel operations name (sections 4.4,
4.5 and 7); the library's own error types for them are not among the sources. -/
inductive ErrorKind where
  | MemoryMapError
  | PdaError
  | InvalidParameterError
  | QueueFullError
  | NotReadyError
  | CardStateError
  | TimeoutError
  | ParseError
  deriving DecidableEq

/-- Modelled from the spec: the superpage descriptor ring (section 4.4) is not among the
sources. A fixed-capacity FIFO: the entries in flight, oldest first, and the last observed
value of the hardware completion counter. -/
structure SuperpageRing where
  capacity : Nat
  entries : List Superpage
  lastObserved : Nat
  deriving DecidableEq

namespace SuperpageRing

/-- Modelled from the spec: `push` "fails with `QueueFullError` if the ring already holds `N`
unacknowledged entries; otherwise appends a Descriptor Ring Entry". -/
def push (ring : SuperpageRing) (sp : Superpage) : Except ErrorKind SuperpageRing :=
  if ring.capacity ≤ ring.entries.length then .error .QueueFullError
  else .ok { ring with entries := ring.entries ++ [sp] }

/-- Marks the oldest `k` entries that are not ready yet; never more than are present. -/
def markOldest : Nat → List Superpage → List Superpage
  | 0, entries => entries
  | _, [] => []
  | k + 1, e :: rest =>
    if e.ready then e :: markOldest (k + 1) rest else e.markReady :: markOldest k rest

/-- Modelled from the spec: `poll` reads the hardware completion count (here the argument
`completionCount`) and "marks the oldest `k` unacknowledged entries `ready = true`, where `k`
is the difference between the hardware completion count and the last observed value. Never
marks more than are actually present in the ring". -/
def poll (ring : SuperpageRing) (completionCount : Nat) : SuperpageRing :=
  { ring with
    entries := markOldest (completionCount - ring.lastObserved) ring.entries
    lastObserved := completionCount }

/-- Modelled from the spec: `front` "returns the oldest entry without removing it; `None` if
empty". -/
def front (ring : SuperpageRing) : Option Superpage :=
  ring.entries.head?

/-- Modelled from the spec: `pop` "fails with `NotReadyError` if the front entry's
`ready != true`; otherwise removes and returns it". An empty ring has no ready front. -/
def pop (ring : SuperpageRing) : Except ErrorKind (Superpage × SuperpageRing) :=
  match ring.entries with
  | [] => .error .NotReadyError
  | e :: rest =>
    if e.ready then .ok (e, { ring with entries := rest }) else .error .NotReadyError

end SuperpageRing

/-- Modelled from the spec: the DMA channel (section 4.5) is not among the sources. The facade
over the ring, with the length of the registered buffer and the state of the engine. -/
structure DmaChannel where
  ring : SuperpageRing
  bufferSize : Nat
  started : Bool
  deriving DecidableEq

namespace DmaChannel

/-- Modelled from the spec: `startDma` "fails with `CardStateError` if already started, or a
`TimeoutException` if a hardware ready acknowledgment does not appear within a bounded poll
window"; `acknowledged` says whether the acknowledgment appeared. -/
def startDma (ch : DmaChannel) (acknowledged : Bool) : Except ErrorKind DmaChannel :=
  if ch.started then .error .CardStateError
  else if acknowledged then .ok { ch with started := true }
  else .error .TimeoutError

/-- Modelled from the spec: `pushSuperpage` validates that `sp.offset + sp.size` lies within
the registered buffer, "failing with `InvalidParameterError` otherwise" and leaving the ring
unchanged, and delegates to the ring's `push`. -/
def pushSuperpage (ch : DmaChannel) (sp : Superpage) : Except ErrorKind DmaChannel :=
  if ch.bufferSize < sp.offset + sp.size then .error .InvalidParameterError
  else
    match ch.ring.push sp with
    | .error e => .error e
    | .ok ring => .ok { ch with ring := ring }

/-- Modelled from the spec: `fillSuperpages` "delegates to the ring's `poll()`". -/
def fillSuperpages (ch : DmaChannel) (completionCount : Nat) : DmaChannel :=
  { ch with ring := ch.ring.poll completionCount }

/-- Modelled from the spec: `getSuperpage` delegates to the ring's `front`. -/
def getSuperpage (ch : DmaChannel) : Option Superpage :=
  ch.ring.front

/-- Modelled from the spec: `popSuperpage` delegates to the ring's `pop`. -/
def popSuperpage (ch : DmaChannel) : Except ErrorKind (Superpage × DmaChannel) :=
  match ch.ring.pop with
  | .error e => .error e
  | .ok (sp, ring) => .ok (sp, { ch with ring := ring })

/-- Modelled from the spec: `getReadyQueueSize` is the "count of entries with `ready == true`
currently retrievable". -/
def getReadyQueueSize (ch : DmaChannel) : Nat :=
  (ch.ring.entries.filter Superpage.isReady).length

/-- Every entry in flight is marked ready. -/
def allReady (ch : DmaChannel) : Prop :=
  ∀ e ∈ ch.ring.entries, e.ready = true

instance (ch : DmaChannel) : Decidable ch.allReady :=
  inferInstanceAs (Decidable (∀ e ∈ ch.ring.entries, e.ready = true))

/-- A sequence of `pushSuperpage` calls, in order; the first failure ends it. -/
def pushAll (ch : DmaChannel) : List Superpage → Except ErrorKind DmaChannel
  | [] => .ok ch
  | sp :: rest =>
    match ch.pushSuperpage sp with
    | .error e => .error e
    | .ok ch1 => pushAll ch1 rest

/-- A sequence of `fillSuperpages` calls, one for each successive reading of the hardware
completion counter. -/
def fillAll (ch : DmaChannel) : List Nat → DmaChannel
  | [] => ch
  | c :: rest => fillAll (ch.fillSuperpages c) rest

/-- The superpages returned by `n` successive `popSuperpage` calls, in order, and the channel
after them; the first failure ends it. -/
def popAll : Nat → DmaChannel → Except ErrorKind (List Superpage × DmaChannel)
  | 0, ch => .ok ([], ch)
  | n + 1, ch =>
    match ch.popSuperpage with
    | .error e => .error e
    | .ok (sp, ch1) =>
      match popAll n ch1 with
      | .error e => .error e
      | .ok (sps, ch2) => .ok (sp :: sps, ch2)

end DmaChannel

/-! ## The example program (`Example.cxx`) -/

/-- The operations of `roc::DmaChannelInterface` that `main` calls, over an abstract state `σ`
of the channel and the hardware behind it. The interface is declared outside the sources, so
its implementation is a parameter. Each call either throws (`Except.error`) or returns its
value together with the state after the call. -/
structure DmaChannelInterface (σ ε : Type) where
  startDma : σ → Except ε σ
  pushSuperpage : σ → Superpage → Except ε σ
  getReadyQueueSize : σ → Except ε (Nat × σ)
  fillSuperpages : σ → Except ε σ
  getSuperpage : σ → Except ε (Superpage × σ)
  popSuperpage : σ → Except ε (Superpage × σ)

/-- The expression `2 * 1024 * 1024` of `constexpr size_t superpageSize`, as a 64-bit
`size_t`. -/
def superpageSize : Nat :=
  (2 * 1024 * 1024) % 2 ^ 64

/-- The constant `constexpr size_t superpageCount = 5`. -/
def superpageCount : Nat :=
  5

/-- The product `superpageCount * superpageSize` of `constexpr size_t bufferSize`, in 64-bit
`size_t` arithmetic. -/
def bufferSize : Nat :=
  (superpageCount * superpageSize) % 2 ^ 64

/-- The body of the loop `for (size_t i = 0; i < superpageCount; ++i)` of `main`, run for the
indices given, in order: `offset = i * superpageSize` in 64-bit `size_t` arithmetic,
`size = superpageSize`, and `channel->pushSuperpage(roc::Superpage(offset, size))`. Returns the
superpages passed to `pushSuperpage`, in call order, and the state after the loop, or `none`
when a call threw (the exception leaves the loop and the `try` block). -/
def pushLoop {σ ε : Type} (channel : DmaChannelInterface σ ε) :
    List Nat → σ → List Superpage × Option σ
  | [], s => ([], some s)
  | i :: rest, s =>
    let offset := (i * superpageSize) % 2 ^ 64
    let size := superpageSize
    let superpage := Superpage.new offset size
    match channel.pushSuperpage s superpage with
    | .error _ => ([superpage], none)
    | .ok s1 =>
      let r := pushLoop channel rest s1
      (superpage :: r.1, r.2)

/-- A call the retrieval loop makes on the channel. `getSuperpage` carries the superpage the
call returned, `none` when it threw. -/
inductive Call where
  | getReadyQueueSize
  | fillSuperpages
  | getSuperpage (returned : Option Superpage)
  | popSuperpage
  deriving DecidableEq

/-- The loop `while (true)` of `main`, for at most `fuel` iterations: the calls made on the
channel in each iteration, one list per iteration. `timeExceeded n` is the value of
`timeExceeded()` in iteration `n` (a reading of the steady clock). An iteration breaks when the
time is exceeded or the ready queue is empty; it then calls `fillSuperpages`, `getSuperpage`,
and `popSuperpage` when `superpage.isReady()`. A throwing call ends the loop. -/
def retrievalLoop {σ ε : Type} (channel : DmaChannelInterface σ ε) (timeExceeded : Nat → Bool) :
    Nat → Nat → σ → List (List Call)
  | 0, _, _ => []
  | fuel + 1, n, s =>
    if timeExceeded n then [[]]
    else
      match channel.getReadyQueueSize s with
      | .error _ => [[.getReadyQueueSize]]
      | .ok (readyQueueSize, s0) =>
        if readyQueueSize = 0 then [[.getReadyQueueSize]]
        else
          match channel.fillSuperpages s0 with
          | .error _ => [[.getReadyQueueSize, .fillSuperpages]]
          | .ok s1 =>
            match channel.getSuperpage s1 with
            | .error _ => [[.getReadyQueueSize, .fillSuperpages, .getSuperpage none]]
            | .ok (superpage, s2) =>
              if superpage.isReady then
                match channel.popSuperpage s2 with
                | .error _ =>
                  [[.getReadyQueueSize, .fillSuperpages, .getSuperpage (some superpage),
                    .popSuperpage]]
                | .ok (_, s3) =>
                  [.getReadyQueueSize, .fillSuperpages, .getSuperpage (some superpage),
                    .popSuperpage] :: retrievalLoop channel timeExceeded fuel (n + 1) s3
              else
                [.getReadyQueueSize, .fillSuperpages, .getSuperpage (some superpage)] ::
                  retrievalLoop channel timeExceeded fuel (n + 1) s2

/-- What a run of `main` did on the channel: the superpages passed to `pushSuperpage`, and the
calls of each iteration of the retrieval loop. -/
structure ExampleRun where
  pushed : List Superpage
  iterations : List (List Call)
  deriving DecidableEq

/-- The `try` block of `main`: `startDma`, the push loop over `0 .. superpageCount - 1`, the
retrieval loop. An exception thrown by a call ends the block. -/
def exampleMain {σ ε : Type} (channel : DmaChannelInterface σ ε) (timeExceeded : Nat → Bool)
    (fuel : Nat) (s : σ) : ExampleRun :=
  match channel.startDma s with
  | .error _ => { pushed := [], iterations := [] }
  | .ok s1 =>
    match pushLoop channel (List.range superpageCount) s1 with
    | (pushed, none) => { pushed := pushed, iterations := [] }
    | (pushed, some s2) =>
      { pushed := pushed, iterations := retrievalLoop channel timeExceeded fuel 0 s2 }

/-- A channel that accepts every call and holds nothing: used to read off the superpages the
push loop passes when no call throws. -/
def acceptingChannel : DmaChannelInterface Unit Unit where
  startDma _ := .ok ()
  pushSuperpage _ _ := .ok ()
  getReadyQueueSize _ := .ok (0, ())
  fillSuperpages _ := .ok ()
  getSuperpage _ := .error ()
  popSuperpage _ := .error ()

/-- The superpages `main` passes to `pushSuperpage` when no call throws, in call order. -/
def examplePushes : List Superpage :=
  (exampleMain acceptingChannel (fun _ => false) 0 ()).pushed

/-- The region `[offset, offset + size)` of the buffer a superpage describes contains `x`. -/
def Superpage.covers (sp : Superpage) (x : Nat) : Prop :=
  sp.offset ≤ x ∧ x < sp.offset + sp.size

/-- The spec-modelled DMA channel together with the hardware behind it: whether the hardware
acknowledges `startDma`, and the successive readings of its completion counter, one for each
`fillSuperpages` call (the counter stays where it is once the readings are used up). -/
structure SimulatedChannel where
  channel : DmaChannel
  acknowledges : Bool
  completionCounts : List Nat
  deriving DecidableEq

/-- The spec-modelled DMA channel, driven by the simulated hardware, as an implementation of
the interface `main` calls. `getSuperpage` on an empty ring throws. -/
def simulatedChannel : DmaChannelInterface SimulatedChannel ErrorKind where
  startDma s :=
    match s.channel.startDma s.acknowledges with
    | .error e => .error e
    | .ok ch => .ok { s with channel := ch }
  pushSuperpage s sp :=
    match s.channel.pushSuperpage sp with
    | .error e => .error e
    | .ok ch => .ok { s with channel := ch }
  getReadyQueueSize s := .ok (s.channel.getReadyQueueSize, s)
  fillSuperpages s :=
    match s.completionCounts with
    | [] => .ok { s with channel := s.channel.fillSuperpages s.channel.ring.lastObserved }
    | c :: rest => .ok { channel := s.channel.fillSuperpages c, acknowledges := s.acknowledges,
                         completionCounts := rest }
  getSuperpage s :=
    match s.channel.getSuperpage with
    | none => .error .NotReadyError
    | some sp => .ok (sp, s)
  popSuperpage s :=
    match s.channel.popSuperpage with
    | .error e => .error e
    | .ok (sp, ch) => .ok (sp, { s with channel := ch })

/-- A state of the simulated channel at the head of the retrieval loop: two superpages in
flight, the older one completed and marked ready, no further completion to come. -/
def SimulatedChannel.oneReady : SimulatedChannel :=
  { channel :=
      { ring := { capacity := 128,
                  entries := [(Superpage.new 0 8).markReady, Superpage.new 8 8],
                  lastObserved := 1 },
        bufferSize := 16, started := true },
    acknowledges := true, completionCounts := [1] }

/-- The channel the FIFO witness starts from: an empty ring of capacity 4 over a buffer of
64 bytes. -/
def DmaChannel.emptyOfFour : DmaChannel :=
  { ring := { capacity := 4, entries := [], lastObserved := 0 }, bufferSize := 64,
    started := true }

/-! ## Lemmas on the ring and the channel -/

theorem Superpage.markReady_of_ready (sp : Superpage) (h : sp.ready = true) :
    sp.markReady = sp := by
  cases sp
  simp_all [Superpage.markReady]

theorem SuperpageRing.markOldest_map_markReady (k : Nat) (entries : List Superpage) :
    (SuperpageRing.markOldest k entries).map Superpage.markReady =
      entries.map Superpage.markReady := by
  induction entries generalizing k with
  | nil => cases k <;> rfl
  | cons e rest ih =>
    cases k with
    | zero => rfl
    | succ k =>
      by_cases he : e.ready = true
      · simp [SuperpageRing.markOldest, he, ih]
      · simp [SuperpageRing.markOldest, he, ih, Superpage.markReady]

theorem SuperpageRing.markOldest_all_ready (k : Nat) (entries : List Superpage)
    (hk : entries.length ≤ k) : ∀ e ∈ SuperpageRing.markOldest k entries, e.ready = true := by
  induction entries generalizing k with
  | nil => cases k <;> simp [SuperpageRing.markOldest]
  | cons e rest ih =>
    cases k with
    | zero => simp at hk
    | succ k =>
      have hrest : rest.length ≤ k := by simpa using hk
      intro x hx
      by_cases he : e.ready = true
      · rw [SuperpageRing.markOldest, if_pos he, List.mem_cons] at hx
        rcases hx with hx | hx
        · rw [hx]
          exact he
        · exact ih (k + 1) (Nat.le_succ_of_le hrest) x hx
      · rw [SuperpageRing.markOldest, if_neg he, List.mem_cons] at hx
        rcases hx with hx | hx
        · rw [hx]
          rfl
        · exact ih k hrest x hx

theorem DmaChannel.pushAll_ok (sps : List Superpage) (ch : DmaChannel)
    (hcap : ch.ring.entries.length + sps.length ≤ ch.ring.capacity)
    (hbounds : ∀ sp ∈ sps, sp.offset + sp.size ≤ ch.bufferSize) :
    ch.pushAll sps =
      .ok { ch with ring := { ch.ring with entries := ch.ring.entries ++ sps } } := by
  induction sps generalizing ch with
  | nil => simp [DmaChannel.pushAll]
  | cons sp rest ih =>
    have hsp : ¬ ch.bufferSize < sp.offset + sp.size :=
      Nat.not_lt.mpr (hbounds sp (List.mem_cons_self _ _))
    have hroom : ¬ ch.ring.capacity ≤ ch.ring.entries.length := by
      simp only [List.length_cons] at hcap
      omega
    simp only [DmaChannel.pushAll, DmaChannel.pushSuperpage, SuperpageRing.push, hsp, hroom,
      if_false]
    rw [ih]
    · simp
    · simp only [List.length_append, List.length_cons, List.length_nil] at hcap ⊢
      omega
    · intro x hx
      exact hbounds x (List.mem_cons_of_mem _ hx)

theorem DmaChannel.fillAll_map_markReady (counts : List Nat) (ch : DmaChannel) :
    (ch.fillAll counts).ring.entries.map Superpage.markReady =
      ch.ring.entries.map Superpage.markReady := by
  induction counts generalizing ch with
  | nil => rfl
  | cons c rest ih =>
    simp only [DmaChannel.fillAll]
    rw [ih]
    exact SuperpageRing.markOldest_map_markReady _ _

theorem DmaChannel.popAll_ready (entries : List Superpage) (ch : DmaChannel)
    (hentries : ch.ring.entries = entries) (hready : ∀ e ∈ entries, e.ready = true) :
    ch.popAll entries.length =
      .ok (entries, { ch with ring := { ch.ring with entries := [] } }) := by
  induction entries generalizing ch with
  | nil =>
    obtain ⟨⟨cap, es, last⟩, b, st⟩ := ch
    simp only at hentries
    subst hentries
    rfl
  | cons e rest ih =>
    have he : e.ready = true := hready e (List.mem_cons_self _ _)
    have hpop : ch.popSuperpage = .ok (e, { ch with ring := { ch.ring with entries := rest } }) := by
      simp [DmaChannel.popSuperpage, SuperpageRing.pop, hentries, he]
    simp only [List.length_cons, DmaChannel.popAll, hpop]
    rw [ih _ rfl (fun x hx => hready x (List.mem_cons_of_mem _ hx))]

/-! ## Lemmas on the example program -/

theorem pushLoop_pushed_initial {σ ε : Type} (channel : DmaChannelInterface σ ε)
    (indices : List Nat) (s : σ) :
    (pushLoop channel indices s).1 <+: (pushLoop acceptingChannel indices ()).1 := by
  induction indices generalizing s with
  | nil => exact List.prefix_refl _
  | cons i rest ih =>
    simp only [pushLoop, acceptingChannel]
    cases hpush : channel.pushSuperpage s (Superpage.new (i * superpageSize % 2 ^ 64) superpageSize) with
    | error e =>
      simp only [List.cons_prefix_cons, true_and]
      exact List.nil_prefix
    | ok s1 =>
      simp only [List.cons_prefix_cons, true_and]
      exact ih s1

theorem examplePushes_eq :
    examplePushes =
      [Superpage.new 0 2097152, Superpage.new 2097152 2097152, Superpage.new 4194304 2097152,
        Superpage.new 6291456 2097152, Superpage.new 8388608 2097152] := by
  decide

/-- The calls of one iteration of the retrieval loop have one of six shapes. -/
theorem retrievalLoop_shape {σ ε : Type} (channel : DmaChannelInterface σ ε)
    (timeExceeded : Nat → Bool) (fuel n : Nat) (s : σ) (it : List Call)
    (hit : it ∈ retrievalLoop channel timeExceeded fuel n s) :
    it = [] ∨ it = [.getReadyQueueSize] ∨ it = [.getReadyQueueSize, .fillSuperpages] ∨
      it = [.getReadyQueueSize, .fillSuperpages, .getSuperpage none] ∨
      (∃ sp, sp.isReady = false ∧
        it = [.getReadyQueueSize, .fillSuperpages, .getSuperpage (some sp)]) ∨
      (∃ sp, sp.isReady = true ∧
        it = [.getReadyQueueSize, .fillSuperpages, .getSuperpage (some sp), .popSuperpage]) := by
  induction fuel generalizing n s with
  | zero => simp [retrievalLoop] at hit
  | succ fuel ih =>
    unfold retrievalLoop at hit
    split at hit
    · simp only [List.mem_singleton] at hit
      exact Or.inl hit
    · split at hit
      · simp only [List.mem_singleton] at hit
        exact Or.inr (Or.inl hit)
      · split at hit
        · simp only [List.mem_singleton] at hit
          exact Or.inr (Or.inl hit)
        · split at hit
          · simp only [List.mem_singleton] at hit
            exact Or.inr (Or.inr (Or.inl hit))
          · split at hit
            · simp only [List.mem_singleton] at hit
              exact Or.inr (Or.inr (Or.inr (Or.inl hit)))
            · rename_i superpage s2 _
              split at hit
              · rename_i hready
                split at hit
                · simp only [List.mem_singleton] at hit
                  exact Or.inr (Or.inr (Or.inr (Or.inr (Or.inr ⟨superpage, hready, hit⟩))))
                · rw [List.mem_cons] at hit
                  rcases hit with hit | hit
                  · exact Or.inr (Or.inr (Or.inr (Or.inr (Or.inr ⟨superpage, hready, hit⟩))))
                  · exact ih _ _ hit
              · rename_i hready
                rw [List.mem_cons] at hit
                rcases hit with hit | hit
                · exact Or.inr (Or.inr (Or.inr (Or.inr (Or.inl
                    ⟨superpage, by simpa using hready, hit⟩))))
                · exact ih _ _ hit

/-! ## Lemmas on the link status tracker -/

/-- The sticky status follows the four rows of the spec's transition rule for a tracker that
has seen no down event while `Up`; after such an event an up-reading gives `UpWasDown`. -/
theorem Cru.LinkTracker.reportPass_rows (tracker : Cru.LinkTracker) :
    (tracker.status = .Down → (tracker.reportPass false).status = .Down) ∧
      (tracker.status = .Down → tracker.downSeenWhileUp = false →
        (tracker.reportPass true).status = .Up) ∧
      (tracker.status = .Up → (tracker.reportPass true).status = .Up) ∧
      (tracker.status = .Up → (tracker.reportPass false).status = .Down) ∧
      (tracker.status = .Down → tracker.downSeenWhileUp = true →
        (tracker.reportPass true).status = .UpWasDown) := by
  obtain ⟨status, seen⟩ := tracker
  cases status <;> cases seen <;> simp [Cru.LinkTracker.reportPass]

theorem Cru.LinkTracker.reportPasses_upWasDown (readings : List Bool)
    (tracker : Cru.LinkTracker) (h : tracker.status = .UpWasDown) :
    (tracker.reportPasses readings).status = .UpWasDown := by
  induction readings generalizing tracker with
  | nil => exact h
  | cons u rest ih =>
    apply ih
    obtain ⟨status, seen⟩ := tracker
    simp only at h
    subst h
    rfl

/-! ## The claims -/

/-- C1. FIFO order of the DMA channel: superpages with pairwise distinct offsets, at most as
many as the ring has capacity and each within the registered buffer, pushed into a channel whose
ring is empty, are all accepted; one `fillSuperpages` call that observes as many completions as
were pushed marks every entry ready; and whenever the `fillSuperpages` calls made (whatever the
readings of the completion counter) leave every entry ready, as many `popSuperpage` calls as
there were pushes all succeed and return the pushed superpages, marked ready, in exactly the
order in which they were pushed, leaving the ring empty. The distinctness of the offsets is the
claim's; the order holds without it. -/
theorem fifo_order (ch : DmaChannel) (sps : List Superpage) (counts : List Nat)
    (hempty : ch.ring.entries = [])
    (hcap : sps.length ≤ ch.ring.capacity)
    (_hdistinct : (sps.map Superpage.offset).Nodup)
    (hbounds : ∀ sp ∈ sps, sp.offset + sp.size ≤ ch.bufferSize) :
    ∃ ch1, ch.pushAll sps = .ok ch1 ∧
      (ch1.fillAll [ch1.ring.lastObserved + sps.length]).allReady ∧
      ((ch1.fillAll counts).allReady →
        ∃ popped ch2, (ch1.fillAll counts).popAll sps.length = .ok (popped, ch2) ∧
          popped.map Superpage.offset = sps.map Superpage.offset ∧
          popped = sps.map Superpage.markReady ∧
          ch2.ring.entries = []) := by
  have hpush := DmaChannel.pushAll_ok sps ch (by simp [hempty, hcap]) hbounds
  simp only [hempty, List.nil_append] at hpush
  have hself : ∀ l : List Superpage, (∀ e ∈ l, e.ready = true) →
      l.map Superpage.markReady = l := by
    intro l hl
    induction l with
    | nil => rfl
    | cons a t iht =>
      simp only [List.map_cons]
      rw [Superpage.markReady_of_ready a (hl a (List.mem_cons_self _ _)),
        iht (fun x hx => hl x (List.mem_cons_of_mem _ hx))]
  refine ⟨_, hpush, ?_, ?_⟩
  · intro e he
    exact SuperpageRing.markOldest_all_ready _ _ (by simp) e he
  · intro hready
    have hmap := DmaChannel.fillAll_map_markReady counts
      { ch with ring := { ch.ring with entries := sps } }
    rw [hself _ hready] at hmap
    have hlen : sps.length =
        (DmaChannel.fillAll { ch with ring := { ch.ring with entries := sps } }
          counts).ring.entries.length := by
      rw [hmap, List.length_map]
    have hpop := DmaChannel.popAll_ready _ _ rfl hready
    rw [← hlen] at hpop
    refine ⟨_, _, hpop, ?_, hmap, rfl⟩
    rw [hmap, List.map_map]
    rfl

/-- Witness of C1: three superpages pushed into an empty ring of capacity 4, completed by the
hardware in two polls (one completion, then two more), are popped in the order pushed. -/
theorem fifo_order_witness :
    ∃ ch1, DmaChannel.emptyOfFour.pushAll
        [Superpage.new 0 16, Superpage.new 32 16, Superpage.new 16 16] = .ok ch1 ∧
      (ch1.fillAll [1, 3]).allReady ∧
      ∃ popped ch2, (ch1.fillAll [1, 3]).popAll 3 = .ok (popped, ch2) ∧
        popped.map Superpage.offset = [0, 32, 16] ∧
        popped = [(Superpage.new 0 16).markReady, (Superpage.new 32 16).markReady,
          (Superpage.new 16 16).markReady] ∧
        ch2.ring.entries = [] := by
  obtain ⟨ch1, hpush, _, hpop⟩ := fifo_order DmaChannel.emptyOfFour
    [Superpage.new 0 16, Superpage.new 32 16, Superpage.new 16 16] [1, 3]
    rfl (by decide) (by decide) (by decide)
  have hch1 : ch1 =
      { ring := { capacity := 4,
                  entries := [Superpage.new 0 16, Superpage.new 32 16, Superpage.new 16 16],
                  lastObserved := 0 },
        bufferSize := 64, started := true } := by
    have hrun : DmaChannel.emptyOfFour.pushAll
        [Superpage.new 0 16, Superpage.new 32 16, Superpage.new 16 16] =
        .ok { ring := { capacity := 4,
                        entries := [Superpage.new 0 16, Superpage.new 32 16,
                          Superpage.new 16 16],
                        lastObserved := 0 },
              bufferSize := 64, started := true } := rfl
    rw [hrun] at hpush
    exact (Except.ok.inj hpush).symm
  subst hch1
  exact ⟨_, hpush, by decide, hpop (by decide)⟩

/-- C2. Sticky bit latch: a link tracker in state `Up` that sees one report pass with
`u = false` is in `Down`, and after a following pass with `u = true` it is in `UpWasDown`, not
in `Up`; the latch is not cleared by the later up-reading, nor by any readings after it. -/
theorem sticky_latch (downSeenWhileUp : Bool) :
    (Cru.LinkTracker.reportPass ⟨.Up, downSeenWhileUp⟩ false).status = .Down ∧
      ((Cru.LinkTracker.reportPass ⟨.Up, downSeenWhileUp⟩ false).reportPass true).status =
        .UpWasDown ∧
      ((Cru.LinkTracker.reportPass ⟨.Up, downSeenWhileUp⟩ false).reportPass true).status ≠
        .Up ∧
      (∀ later : List Bool,
        (((Cru.LinkTracker.reportPass ⟨.Up, downSeenWhileUp⟩ false).reportPass
          true).reportPasses later).status = .UpWasDown) := by
  refine ⟨rfl, rfl, by cases downSeenWhileUp <;> decide, ?_⟩
  intro later
  exact Cru.LinkTracker.reportPasses_upWasDown later _ rfl

/-- C3. Reset level round trip: `fromString (toString level)` succeeds with `level` for each of
the three levels, and `toString` is injective. -/
theorem resetLevel_round_trip :
    (∀ level : ResetLevel.type,
        ResetLevel.fromString (ResetLevel.toString level) = .ok level) ∧
      Function.Injective ResetLevel.toString := by
  have hround : ∀ level : ResetLevel.type,
      ResetLevel.fromString (ResetLevel.toString level) = .ok level := by
    intro level
    cases level <;> rfl
  refine ⟨hround, ?_⟩
  intro a b hab
  have h := hround a
  rw [hab, hround b] at h
  exact (Except.ok.inj h).symm

/-- C4. `includesExternal` is true exactly for `InternalSiu` (numeric value 2) and false for
`Nothing` (0) and `Internal` (1); it is monotone in the numeric order of the enum. -/
theorem includesExternal_iff_internalSiu :
    (∀ level : ResetLevel.type,
        ResetLevel.includesExternal level = true ↔ level = .InternalSiu) ∧
      ResetLevel.includesExternal .InternalSiu = true ∧
      ResetLevel.includesExternal .Nothing = false ∧
      ResetLevel.includesExternal .Internal = false ∧
      ResetLevel.type.toNat .Nothing = 0 ∧ ResetLevel.type.toNat .Internal = 1 ∧
      ResetLevel.type.toNat .InternalSiu = 2 ∧
      (∀ a b : ResetLevel.type, a.toNat ≤ b.toNat →
        ResetLevel.includesExternal a = true → ResetLevel.includesExternal b = true) := by
  refine ⟨?_, rfl, rfl, rfl, rfl, rfl, rfl, ?_⟩
  · intro level
    cases level <;> decide
  · intro a b
    cases a <;> cases b <;> decide

/-- C5 (as stated, refuted). The taxonomy's kinds `QueueFullError` and `NotReadyError` have no
exception type in `Exception.h`: neither `QueueFullException` nor `NotReadyException` is
defined, and no defined type carries `QueueFull` or `NotReady` in its name. -/
theorem taxonomy_not_covered :
    "QueueFull" ∈ errorTaxonomy ∧ "NotReady" ∈ errorTaxonomy ∧
      exceptionNameOf "QueueFull" ∉ declaredExceptions ∧
      exceptionNameOf "NotReady" ∉ declaredExceptions ∧
      stemOccurs "QueueFull" = false ∧ stemOccurs "NotReady" = false ∧
      ¬ (∀ stem ∈ errorTaxonomy, kindCovered stem = true) := by
  decide

/-- C5 (amended). The kinds `MemoryMapError`, `PdaError`, `InvalidParameterError`,
`TimeoutError` and `ParseError` each have their exception type in `Exception.h`, and each such
type descends from the base `Exception`; these five are the covered kinds of the taxonomy, and
`QueueFullError` and `NotReadyError` are the ones without a type. -/
theorem taxonomy_covered_kinds :
    isLibraryException "MemoryMapException" = true ∧
      isLibraryException "PdaException" = true ∧
      isLibraryException "InvalidParameterException" = true ∧
      isLibraryException "TimeoutException" = true ∧
      isLibraryException "ParseException" = true ∧
      errorTaxonomy.filter kindCovered =
        ["MemoryMap", "Pda", "InvalidParameter", "Timeout", "Parse"] ∧
      errorTaxonomy.filter (fun stem => !kindCovered stem) = ["QueueFull", "NotReady"] := by
  decide

/-- C6. `CrorcBar::getCardType` is pure: for every state it returns `CardType::Crorc`, the
result is the same for any two states, and the state after the call is the state before it. -/
theorem getCardType_pure {Base : Type} (bar other : CrorcBar Base) :
    bar.getCardType.1 = CardType.type.Crorc ∧
      bar.getCardType.1 = other.getCardType.1 ∧
      bar.getCardType.2 = bar :=
  ⟨rfl, rfl, rfl⟩

/-- C7. Retrieval in the example is guarded. The calls of every iteration of the retrieval
loop are exactly one of: none (time exceeded); `getReadyQueueSize` alone (empty queue, or the
call threw); then `fillSuperpages` (which threw); then `getSuperpage` (which threw); then
nothing more, the returned superpage not being ready; or then a single `popSuperpage`, the
returned superpage being ready. So a `getSuperpage` call comes right after the one
`fillSuperpages` call of its iteration and is followed by at most the one `popSuperpage`;
`popSuperpage` is called if and only if the superpage `getSuperpage` returned in that iteration
reports `isReady()`; it is called at most once in an iteration, and every call of it is the
call right after a `getSuperpage` that returned a ready superpage, never after one that
returned a superpage that is not ready. -/
theorem retrieval_guarded {σ ε : Type} (channel : DmaChannelInterface σ ε)
    (timeExceeded : Nat → Bool) (fuel n : Nat) (s : σ) (it : List Call)
    (hit : it ∈ retrievalLoop channel timeExceeded fuel n s) :
    (it = [] ∨ it = [.getReadyQueueSize] ∨ it = [.getReadyQueueSize, .fillSuperpages] ∨
        it = [.getReadyQueueSize, .fillSuperpages, .getSuperpage none] ∨
        (∃ sp, sp.isReady = false ∧
          it = [.getReadyQueueSize, .fillSuperpages, .getSuperpage (some sp)]) ∨
        (∃ sp, sp.isReady = true ∧
          it = [.getReadyQueueSize, .fillSuperpages, .getSuperpage (some sp),
            .popSuperpage])) ∧
      (∀ r, Call.getSuperpage r ∈ it →
        ∃ rest, it = .getReadyQueueSize :: .fillSuperpages :: .getSuperpage r :: rest ∧
          (rest = [] ∨ rest = [.popSuperpage]) ∧
          Call.fillSuperpages ∉ rest ∧ ∀ r2, Call.getSuperpage r2 ∉ rest) ∧
      (Call.popSuperpage ∈ it ↔
        ∃ sp, Call.getSuperpage (some sp) ∈ it ∧ sp.isReady = true) ∧
      (∀ sp, Call.getSuperpage (some sp) ∈ it → sp.isReady = false →
        Call.popSuperpage ∉ it) ∧
      it.count Call.popSuperpage ≤ 1 ∧
      (Call.popSuperpage ∈ it →
        ∃ sp, sp.isReady = true ∧
          it = [.getReadyQueueSize, .fillSuperpages, .getSuperpage (some sp),
            .popSuperpage]) := by
  have hshape := retrievalLoop_shape channel timeExceeded fuel n s it hit
  refine ⟨hshape, ?_⟩
  rcases hshape with h | h | h | h | ⟨sp, hsp, h⟩ | ⟨sp, hsp, h⟩
  · subst h
    simp
  · subst h
    simp
  · subst h
    simp
  · subst h
    simp
  · subst h
    simp [hsp]
  · subst h
    simp [hsp]

/-- Witness of C7: the spec-modelled channel holding a ready superpage and one in flight. The
first iteration pops the ready superpage, once, right after `getSuperpage` returned it. -/
theorem retrieval_guarded_witness :
    [Call.getReadyQueueSize, Call.fillSuperpages,
        Call.getSuperpage (some (Superpage.new 0 8).markReady), Call.popSuperpage] ∈
      retrievalLoop simulatedChannel (fun _ => false) 4 0 SimulatedChannel.oneReady ∧
      (Call.popSuperpage ∈
          [Call.getReadyQueueSize, Call.fillSuperpages,
            Call.getSuperpage (some (Superpage.new 0 8).markReady), Call.popSuperpage] ↔
        ∃ sp, Call.getSuperpage (some sp) ∈
          [Call.getReadyQueueSize, Call.fillSuperpages,
            Call.getSuperpage (some (Superpage.new 0 8).markReady), Call.popSuperpage] ∧
          sp.isReady = true) ∧
      List.count Call.popSuperpage
          [Call.getReadyQueueSize, Call.fillSuperpages,
            Call.getSuperpage (some (Superpage.new 0 8).markReady), Call.popSuperpage] ≤ 1 :=
  ⟨by decide,
    (retrieval_guarded simulatedChannel (fun _ => false) 4 0 SimulatedChannel.oneReady _
      (by decide)).2.2.1,
    (retrieval_guarded simulatedChannel (fun _ => false) 4 0 SimulatedChannel.oneReady _
      (by decide)).2.2.2.2.1⟩

/-- C8. Every superpage the example pushes lies within the registered buffer: the `i`-th
pushed superpage, `i < superpageCount = 5`, has offset `i * superpageSize` and size
`superpageSize` (2 MiB) with `offset + size ≤ bufferSize` (10 MiB); the offsets are pairwise
distinct, the regions pairwise disjoint, and together they cover exactly `[0, bufferSize)`.
On any channel, the superpages pushed are an initial part of these (all of them unless a call
throws). -/
theorem example_pushes_within_buffer :
    superpageSize = 2 * 1024 * 1024 ∧ superpageCount = 5 ∧
      bufferSize = superpageCount * superpageSize ∧ bufferSize = 10 * 1024 * 1024 ∧
      examplePushes.length = superpageCount ∧
      (∀ i, i < superpageCount →
        ∃ sp, examplePushes[i]? = some sp ∧ sp.offset = i * superpageSize ∧
          sp.size = superpageSize ∧ sp.offset + sp.size ≤ bufferSize) ∧
      (examplePushes.map Superpage.offset).Nodup ∧
      examplePushes.Pairwise (fun a b => ∀ x, ¬ (a.covers x ∧ b.covers x)) ∧
      (∀ x, x < bufferSize ↔ ∃ sp ∈ examplePushes, sp.covers x) ∧
      (∀ (σ ε : Type) (channel : DmaChannelInterface σ ε) (timeExceeded : Nat → Bool)
          (fuel : Nat) (s : σ),
        (exampleMain channel timeExceeded fuel s).pushed <+: examplePushes) := by
  have hsize : superpageSize = 2097152 := by decide
  have hcount : superpageCount = 5 := rfl
  have hbuf : bufferSize = 10485760 := by decide
  refine ⟨by decide, rfl, by decide, by decide, by decide, ?_, by decide, ?_, ?_, ?_⟩
  · intro i hi
    rw [hcount] at hi
    rw [examplePushes_eq, hsize, hbuf]
    interval_cases i <;> exact ⟨_, rfl, by decide, rfl, by decide⟩
  · rw [examplePushes_eq]
    simp only [List.pairwise_cons, List.mem_cons, List.mem_singleton, List.not_mem_nil,
      forall_eq_or_imp, forall_eq, Superpage.covers, Superpage.new]
    repeat' constructor
    all_goals first | (intro x; omega) | (intro a ha; exact absurd ha (by simp))
  · intro x
    rw [examplePushes_eq, hbuf]
    simp only [List.mem_cons, List.mem_singleton, List.not_mem_nil, Superpage.covers,
      Superpage.new, exists_eq_or_imp, exists_eq_left, or_false]
    omega
  · intro σ ε channel timeExceeded fuel s
    unfold exampleMain
    cases channel.startDma s with
    | error e => exact List.nil_prefix
    | ok s1 =>
      have hpre := pushLoop_pushed_initial channel (List.range superpageCount) s1
      have hex : examplePushes = (pushLoop acceptingChannel (List.range superpageCount) ()).1 :=
        rfl
      rw [hex]
      simp only
      split
      · rename_i pushed heq
        rw [heq] at hpre
        exact hpre
      · rename_i pushed s2 heq
        rw [heq] at hpre
        exact hpre

/-- C9. The clock label follows the encoding 0 = TTC, 1 = Local of `ttcClock`: it is "TTC"
when `ttcClock` is 0, "Local" when `ttcClock` is 1, and "TTC" if and only if `ttcClock` is 0. -/
theorem clockLabel_follows_ttcClock (reportInfo : Cru.ReportInfo) :
    (reportInfo.ttcClock = 0 → clockLabel reportInfo = "TTC") ∧
      (reportInfo.ttcClock = 1 → clockLabel reportInfo = "Local") ∧
      (clockLabel reportInfo = "TTC" ↔ reportInfo.ttcClock = 0) := by
  unfold clockLabel
  refine ⟨?_, ?_, ?_⟩
  · intro h
    simp [h]
  · intro h
    simp [h]
  · by_cases h : reportInfo.ttcClock = 0
    · simp [h]
    · simp only [h, if_false, iff_false]
      decide

/-- C10. The rendering of the sticky status is total and injective on the three states: `Up`
renders as "UP", `UpWasDown` as "UP (was DOWN)", `Down` as "DOWN"; every state gets a
non-empty label and distinct states get distinct labels. -/
theorem linkStatusLabel_total_injective :
    linkStatusLabel .Up = "UP" ∧ linkStatusLabel .UpWasDown = "UP (was DOWN)" ∧
      linkStatusLabel .Down = "DOWN" ∧
      (∀ stickyBit, linkStatusLabel stickyBit ≠ "") ∧
      Function.Injective linkStatusLabel := by
  refine ⟨rfl, rfl, rfl, ?_, ?_⟩
  · intro stickyBit
    cases stickyBit <;> decide
  · intro a b hab
    cases a <;> cases b <;> first | rfl | exact absurd hab (by decide)

end ReadoutCard
